import Mathlib

/-!
Verification of `templates/validate.py`, the Phala Cloud template-catalog
validator.  The script is a linear pipeline: load the catalog and schema
documents, check the catalog is a list of objects, check `id` uniqueness,
validate against a JSON schema (bulk pass, then per-entry fallback), and
check that every referenced icon file exists in the icons directory,
offering a `difflib`-style fuzzy suggestion for unresolved references.

The embedding below models JSON values, Python truthiness and `dict.get`,
the `difflib.get_close_matches(word, files, n=1, cutoff=0.6)` call used by
`find_similar_filename`, and the driver `main` as a pure function from the
three loaded inputs (catalog document, schema document, icon-directory
listing) to an exit code together with the list of pipeline stages that
were executed.  The external `jsonschema.validate` library call is treated
as an abstract validator parameter (a function from instance and schema to
an optional validation error), since only the control flow around it
belongs to the repository.
-/

/-- JSON values, as loaded by `json.load`.  Numbers are modelled as
integers; the catalog fields inspected by the validator (`id`, `name`,
`icon`) are strings in the data model, so the numeric representation is
irrelevant to the checks.  Objects are association lists with the usual
unique-key reading of JSON texts. -/
inductive Json where
  | null
  | bool (b : Bool)
  | num (n : Int)
  | str (s : String)
  | arr (elems : List Json)
  | obj (fields : List (String × Json))
deriving Repr

mutual

/-- Decidable equality for `Json` (the derive handler does not support the
nested `List` occurrences, so it is spelled out). -/
def Json.decEq : (a b : Json) → Decidable (a = b)
  | .null, .null => isTrue rfl
  | .bool a, .bool b =>
    match Bool.decEq a b with
    | isTrue h => isTrue (h ▸ rfl)
    | isFalse h => isFalse (fun hh => h (Json.bool.inj hh))
  | .num a, .num b =>
    match Int.decEq a b with
    | isTrue h => isTrue (h ▸ rfl)
    | isFalse h => isFalse (fun hh => h (Json.num.inj hh))
  | .str a, .str b =>
    match String.decEq a b with
    | isTrue h => isTrue (h ▸ rfl)
    | isFalse h => isFalse (fun hh => h (Json.str.inj hh))
  | .arr a, .arr b =>
    match Json.decEqList a b with
    | isTrue h => isTrue (h ▸ rfl)
    | isFalse h => isFalse (fun hh => h (Json.arr.inj hh))
  | .obj a, .obj b =>
    match Json.decEqFields a b with
    | isTrue h => isTrue (h ▸ rfl)
    | isFalse h => isFalse (fun hh => h (Json.obj.inj hh))
  | .null, .bool _ => isFalse (fun h => Json.noConfusion h)
  | .null, .num _ => isFalse (fun h => Json.noConfusion h)
  | .null, .str _ => isFalse (fun h => Json.noConfusion h)
  | .null, .arr _ => isFalse (fun h => Json.noConfusion h)
  | .null, .obj _ => isFalse (fun h => Json.noConfusion h)
  | .bool _, .null => isFalse (fun h => Json.noConfusion h)
  | .bool _, .num _ => isFalse (fun h => Json.noConfusion h)
  | .bool _, .str _ => isFalse (fun h => Json.noConfusion h)
  | .bool _, .arr _ => isFalse (fun h => Json.noConfusion h)
  | .bool _, .obj _ => isFalse (fun h => Json.noConfusion h)
  | .num _, .null => isFalse (fun h => Json.noConfusion h)
  | .num _, .bool _ => isFalse (fun h => Json.noConfusion h)
  | .num _, .str _ => isFalse (fun h => Json.noConfusion h)
  | .num _, .arr _ => isFalse (fun h => Json.noConfusion h)
  | .num _, .obj _ => isFalse (fun h => Json.noConfusion h)
  | .str _, .null => isFalse (fun h => Json.noConfusion h)
  | .str _, .bool _ => isFalse (fun h => Json.noConfusion h)
  | .str _, .num _ => isFalse (fun h => Json.noConfusion h)
  | .str _, .arr _ => isFalse (fun h => Json.noConfusion h)
  | .str _, .obj _ => isFalse (fun h => Json.noConfusion h)
  | .arr _, .null => isFalse (fun h => Json.noConfusion h)
  | .arr _, .bool _ => isFalse (fun h => Json.noConfusion h)
  | .arr _, .num _ => isFalse (fun h => Json.noConfusion h)
  | .arr _, .str _ => isFalse (fun h => Json.noConfusion h)
  | .arr _, .obj _ => isFalse (fun h => Json.noConfusion h)
  | .obj _, .null => isFalse (fun h => Json.noConfusion h)
  | .obj _, .bool _ => isFalse (fun h => Json.noConfusion h)
  | .obj _, .num _ => isFalse (fun h => Json.noConfusion h)
  | .obj _, .str _ => isFalse (fun h => Json.noConfusion h)
  | .obj _, .arr _ => isFalse (fun h => Json.noConfusion h)

/-- Decidable equality for lists of JSON values. -/
def Json.decEqList : (a b : List Json) → Decidable (a = b)
  | [], [] => isTrue rfl
  | [], _ :: _ => isFalse (fun h => List.noConfusion h)
  | _ :: _, [] => isFalse (fun h => List.noConfusion h)
  | x :: xs, y :: ys =>
    match Json.decEq x y with
    | isFalse h => isFalse (fun hh => h (List.cons.inj hh).1)
    | isTrue h1 =>
      match Json.decEqList xs ys with
      | isTrue h2 => isTrue (by rw [h1, h2])
      | isFalse h => isFalse (fun hh => h (List.cons.inj hh).2)

/-- Decidable equality for JSON object field lists. -/
def Json.decEqFields : (a b : List (String × Json)) → Decidable (a = b)
  | [], [] => isTrue rfl
  | [], _ :: _ => isFalse (fun h => List.noConfusion h)
  | _ :: _, [] => isFalse (fun h => List.noConfusion h)
  | (k1, v1) :: xs, (k2, v2) :: ys =>
    match String.decEq k1 k2 with
    | isFalse h => isFalse (fun hh => h (congrArg Prod.fst (List.cons.inj hh).1))
    | isTrue hk =>
      match Json.decEq v1 v2 with
      | isFalse h => isFalse (fun hh => h (congrArg Prod.snd (List.cons.inj hh).1))
      | isTrue hv =>
        match Json.decEqFields xs ys with
        | isTrue ht => isTrue (by rw [hk, hv, ht])
        | isFalse h => isFalse (fun hh => h (List.cons.inj hh).2)

end

instance : DecidableEq Json := Json.decEq

/-- Python `dict.get(key)`: the value stored under `key`, or `None` when
the key is absent.  Non-object values have no keys. -/
def Json.get (j : Json) (key : String) : Option Json :=
  match j with
  | .obj fields => fields.lookup key
  | _ => none

/-- Python truthiness of a JSON value: `None`, `False`, `0`, `""`, `[]`
and `{}` are falsy, everything else is truthy. -/
def Json.truthy : Json → Bool
  | .null => false
  | .bool b => b
  | .num n => n != 0
  | .str s => s != ""
  | .arr elems => !elems.isEmpty
  | .obj fields => !fields.isEmpty

/-- Python `entry.get(key)` used in a boolean context (`if entry.get(k):`):
the field value when it is present and truthy. -/
def Json.getTruthy (j : Json) (key : String) : Option Json :=
  match j.get key with
  | some v => if v.truthy then some v else none
  | none => none

/-- Python `entry.get(key, default)`: falls back to `default` only when
the key is absent — a present-but-falsy value is returned as is. -/
def Json.getD (j : Json) (key : String) (default : Json) : Json :=
  match j.get key with
  | some v => v
  | none => default

/-!
Model of `difflib.get_close_matches(word, possibilities, n=1, cutoff=0.6)`
as used by `find_similar_filename`.  `SequenceMatcher.ratio()` is
`2*M/T` where `T` is the sum of the two string lengths and `M` is the
total size of the matching blocks of the Ratcliff-Obershelp recursion:
repeatedly take the block `find_longest_match` selects for the two
windows and recurse on the parts before and on the parts after it.
`SequenceMatcher` is constructed with no junk predicate, so `bjunk` is
empty, but the autojunk heuristic is active: when the second sequence
(the requested word) has length at least 200, the elements occurring in
it more than `len(word) // 100 + 1` times are "popular" and are purged
from the `b2j` index (they land in `bpopular`, not in `bjunk`).
`find_longest_match` therefore (1) runs its dynamic program over the
purged index, finding the longest run of equal characters none of which
is popular (ties towards the earliest run start in the first sequence,
then in the second: the scan over run ends in increasing `(i, j)`
order, updating only on strictly longer runs, picks exactly the
maximal-length restricted run with minimal start positions, and
defaults to `(alo, blo, 0)`), and then (2) extends the selected block
on both ends over directly equal characters — the extension loops test
`isbjunk`, i.e. membership in the empty `bjunk`, so they extend over
any equal characters, popular included, and they also run when the
dynamic program found nothing.  `get_close_matches` keeps the
candidates whose ratio is at least the cutoff (its two quick-ratio
prefilters are upper bounds of `ratio` — matching blocks pair equal
elements one-to-one, also with the purge — so they do not change the
kept set) and returns the maximum of the `(ratio, candidate)` pairs in
Python tuple order, i.e. highest ratio first and, on equal ratios, the
lexicographically largest candidate string.  Python compares floats;
scores are compared here as exact rationals, via cross multiplication
of `(2*M, T)` pairs, which agrees with the float comparisons at every
realizable score. -/

/-- Length of the common prefix of two character lists, i.e. the length
of the matching run starting at a given pair of positions. -/
def runLen : List Char → List Char → Nat
  | x :: xs, y :: ys => if x = y then runLen xs ys + 1 else 0
  | _, _ => 0

/-- The autojunk predicate of `SequenceMatcher.__chain_b` on the second
sequence `b`: with no junk predicate given, an element is purged from
the `b2j` index exactly when `len(b) >= 200` and it occurs in `b` more
than `len(b) // 100 + 1` times.  Popularity depends only on the
element's value and on the full word, which is fixed once per matcher,
so the predicate is passed unchanged through the window recursion. -/
def isPopular (b : List Char) (c : Char) : Bool :=
  decide (200 ≤ b.length) && decide (b.length / 100 + 1 < b.count c)

/-- Length of the matching run starting at a given pair of positions
that the purged `b2j` index can see: equal characters whose value is
not popular (a popular character has no `b2j` entry, so it breaks the
`j2len` chains of the dynamic program in both sequences). -/
def runLenNP (pop : Char → Bool) : List Char → List Char → Nat
  | x :: xs, y :: ys => if x = y ∧ pop y = false then runLenNP pop xs ys + 1 else 0
  | _, _ => 0

/-- The block selected by the dynamic program of
`SequenceMatcher.find_longest_match`, as a triple `(i, j, k)`: the
longest run of non-popular matching characters, ties broken towards the
smallest start `i` and then the smallest `j`; `(0, 0, 0)` when the
windows have no such run (the program's `besti, bestj, bestsize = alo,
blo, 0` default, in window-relative coordinates). -/
def dpBestBlock (pop : Char → Bool) (a b : List Char) : Nat × Nat × Nat :=
  let cands := (List.range a.length).flatMap
    (fun i => (List.range b.length).map (fun j => (i, j, runLenNP pop (a.drop i) (b.drop j))))
  cands.foldl (fun best c => if best.2.2 < c.2.2 then c else best) (0, 0, 0)

/-- `SequenceMatcher.find_longest_match` on a pair of windows: the
block the dynamic program selects, extended backward and then forward
over directly equal characters (the extension guards test membership in
the empty `bjunk`, so they pass for every character, popular included,
and the extensions also apply to the `(alo, blo, 0)` default). -/
def findLongestMatch (pop : Char → Bool) (a b : List Char) : Nat × Nat × Nat :=
  let r := dpBestBlock pop a b
  let back := runLen (a.take r.1).reverse (b.take r.2.1).reverse
  let i1 := r.1 - back
  let j1 := r.2.1 - back
  let k1 := r.2.2 + back
  (i1, j1, k1 + runLen (a.drop (i1 + k1)) (b.drop (j1 + k1)))

/-- Fuelled total of the matching-block sizes of the Ratcliff-Obershelp
recursion: the selected block plus the totals of the windows before and
after it.  Each recursive call strictly decreases the sum of the window
lengths, so fuel `a.length + b.length` (as supplied by `matchTotal`)
always suffices and the fuel-exhausted branch is never taken. -/
def matchTotalFuel (pop : Char → Bool) : Nat → List Char → List Char → Nat
  | 0, _, _ => 0
  | fuel + 1, a, b =>
    let r := findLongestMatch pop a b
    let i := r.1
    let j := r.2.1
    let k := r.2.2
    if k = 0 then 0
    else matchTotalFuel pop fuel (a.take i) (b.take j) + k +
         matchTotalFuel pop fuel (a.drop (i + k)) (b.drop (j + k))

/-- Total number of matched characters `M` between a candidate `a` and
the requested word `b`: the sum of the sizes of the matching blocks
found by the Ratcliff-Obershelp recursion
(`SequenceMatcher.get_matching_blocks`; its merging of adjacent blocks
does not change the sum), with the autojunk popularity predicate
computed from the full word. -/
def matchTotal (a b : List Char) : Nat :=
  matchTotalFuel (isPopular b) (a.length + b.length) a b

/-- The similarity score of a candidate against the requested word, as an
unreduced fraction `(numerator, denominator)` over the naturals:
`(2*M, T)` with `T = len(candidate) + len(word)`, or `(1, 1)` when both
strings are empty (`_calculate_ratio` returns `1.0` for `T = 0`). -/
def scorePair (candidate word : String) : Nat × Nat :=
  let a := candidate.toList
  let b := word.toList
  let t := a.length + b.length
  if t = 0 then (1, 1) else (2 * matchTotal a b, t)

/-- `SequenceMatcher(a=candidate, b=word).ratio()` as an exact rational:
`2*M/T`, or `1` when both strings are empty. -/
def simScore (candidate word : String) : Rat :=
  ((scorePair candidate word).1 : Rat) / ((scorePair candidate word).2 : Rat)

/-- Python code-point comparison of character lists (`str < str` is
lexicographic on code points). -/
def charListLt : List Char → List Char → Bool
  | [], [] => false
  | [], _ :: _ => true
  | _ :: _, [] => false
  | x :: xs, y :: ys => if x < y then true else if y < x then false else charListLt xs ys

/-- Python string comparison `a < b` (code-point lexicographic). -/
def pyStrLt (a b : String) : Bool := charListLt a.toList b.toList

/-- Comparison of two scored candidates `((num, den), s)` in Python tuple
order `(ratio, s)`: strictly smaller ratio, or equal ratio and strictly
smaller string.  Ratio comparisons are by cross multiplication of the
positive-denominator score fractions. -/
def scoredLt (p q : (Nat × Nat) × String) : Bool :=
  (p.1.1 * q.1.2 < q.1.1 * p.1.2 : Bool) ||
  ((p.1.1 * q.1.2 == q.1.1 * p.1.2) && pyStrLt p.2 q.2)

/-- Python `max` over a nonempty list of scored candidates (the `n == 1`
short cut of `heapq.nlargest`): fold keeping the current best unless the
next element is strictly greater in tuple order. -/
def pyMax (c : (Nat × Nat) × String) (cs : List ((Nat × Nat) × String)) :
    (Nat × Nat) × String :=
  cs.foldl (fun best x => if scoredLt best x then x else best) c

/-- Cutoff test `ratio >= 0.6`, by cross multiplication:
`num/den >= 3/5` iff `3*den <= 5*num`. -/
def passesCutoff (candidate word : String) : Bool :=
  3 * (scorePair candidate word).2 ≤ 5 * (scorePair candidate word).1

/-- The scored candidates kept by `get_close_matches`: the possibilities
whose ratio against `word` reaches the cutoff, each paired with its
score, in list order. -/
def candidatePairs (word : String) (files : List String) : List ((Nat × Nat) × String) :=
  files.filterMap (fun x => if passesCutoff x word then some (scorePair x word, x) else none)

/-- `find_similar_filename(filename, available_files)`:
`difflib.get_close_matches(filename, available_files, n=1, cutoff=0.6)`,
returning the single best match or `None` when no candidate reaches the
cutoff. -/
def find_similar_filename (filename : String) (available_files : List String) : Option String :=
  match candidatePairs filename available_files with
  | [] => none
  | c :: cs => some (pyMax c cs).2

/-!
The validation stages of `validate.py`.
-/

/-- `validate_json_format(config)`: `config` must be a list and every
element must be an object. -/
def validate_json_format : Json → Bool
  | .arr entries => entries.all (fun e => match e with | .obj _ => true | _ => false)
  | _ => false

/-- The entry list of a catalog document that passed the format check
(`config` is then a JSON array). -/
def getEntries : Json → List Json
  | .arr elems => elems
  | _ => []

/-- The collected ids:
`[entry.get("id") for entry in entries if entry.get("id")]` — the `id`
values of the entries where the field is present and truthy. -/
def collectIds (entries : List Json) : List Json :=
  entries.filterMap (fun e => e.getTruthy "id")

/-- `validate_duplicate_ids(entries)`: the collected id values whose
count in the collected list exceeds one, one representative per value
(Python builds `set(ids)`; the set is modelled by `dedup`, the claims
about it are membership statements). -/
def validate_duplicate_ids (entries : List Json) : List Json :=
  let ids := collectIds entries
  ids.dedup.filter (fun v => decide (1 < ids.count v))

/-- A validation error as surfaced by the `jsonschema` library: its
string rendering and the path of the offending field (path components
already rendered as strings, as by `str(p)`). -/
structure VError where
  message : String
  path : List String
deriving DecidableEq, Repr

/-- Abstract interface of `jsonschema.validate(instance, schema)`: `none`
when the instance conforms, `some e` for the raised `ValidationError`.
The library is external to the repository; every theorem about
`validate_schema` is parametric in it. -/
def Validator : Type := Json → Json → Option VError

/-- One record of the list returned by `validate_schema`. -/
structure SchemaError where
  id : Json
  name : Json
  error : String
  path : String
deriving DecidableEq, Repr

/-- The record appended for a failing entry at index `i`:
`{"id": entry.get("id", f"entry-{i}"), "name": entry.get("name", "unknown"),
"error": str(entry_error), "path": ".".join(str(p) for p in entry_error.path)}`. -/
def mkSchemaError (i : Nat) (entry : Json) (err : VError) : SchemaError :=
  { id := entry.getD "id" (.str ("entry-" ++ toString i)),
    name := entry.getD "name" (.str "unknown"),
    error := err.message,
    path := String.intercalate "." err.path }

/-- Body of the per-entry loop of `validate_schema`: the accumulated
error list is extended when the entry fails against `schema["items"]`.
The `schema["items"]` subscript is evaluated inside the loop and is
unguarded: a missing `"items"` key raises `KeyError` (modelled by the
`Except` error), which propagates out of `validate_schema`. -/
def schemaStep (validate : Validator) (schema : Json) (acc : List SchemaError)
    (p : Nat × Json) : Except String (List SchemaError) :=
  match schema.get "items" with
  | none => .error "KeyError: items"
  | some itemSchema =>
    match validate p.2 itemSchema with
    | none => .ok acc
    | some err => .ok (acc ++ [mkSchemaError p.1 p.2 err])

/-- `validate_schema(config, schema)`: bulk-validate the whole list
against `schema`; on success return `[]`, on a validation error fall
back to validating each entry against `schema["items"]`, collecting one
record per failing entry. -/
def validate_schema (validate : Validator) (config : List Json) (schema : Json) :
    Except String (List SchemaError) :=
  match validate (Json.arr config) schema with
  | none => .ok []
  | some _ => config.enum.foldlM (schemaStep validate schema) []

/-- One record of the list returned by `validate_icons`. -/
structure IconError where
  id : Json
  name : Json
  icon : String
  error : String
  suggestion : Option String
deriving DecidableEq, Repr

/-- The body of the per-entry loop of `validate_icons`: an error record
when the entry has a truthy `icon` value that is not among the icon
files, `none` otherwise.  A truthy non-string `icon` value is outside
the catalog data model (`icon` is an optional string); on such a value
the Python would raise inside `difflib` instead of recording an error,
so the claims about `validate_icons` carry a string-typed-icon
hypothesis and the non-string branch here is never reached under it. -/
def entryIconError (icon_files : List String) (entry : Json) : Option IconError :=
  match entry.getTruthy "icon" with
  | none => none
  | some v =>
    match v with
    | .str s =>
      if icon_files.contains s then none
      else some
        { id := entry.getD "id" (.str "unknown"),
          name := entry.getD "name" (.str "unknown"),
          icon := s,
          error := "Icon file not found in icons directory",
          suggestion := find_similar_filename s icon_files }
    | _ => none

/-- `validate_icons(entries)` given the icon-directory listing
`icon_files`: one error record per entry whose truthy `icon` value does
not resolve to a listed file. -/
def validate_icons (entries : List Json) (icon_files : List String) : List IconError :=
  entries.filterMap (entryIconError icon_files)

/-- The unused-icon warning list of `validate_icons`: the listed files
referenced by no entry's truthy `icon` value (printed, never part of the
returned error list). -/
def unused_icons (entries : List Json) (icon_files : List String) : List String :=
  let used := entries.filterMap (fun e => e.getTruthy "icon")
  icon_files.filter (fun f => !used.contains (Json.str f))

/-- The five pipeline stages of `main`. -/
inductive Stage where
  | loading
  | formatCheck
  | duplicateCheck
  | schemaCheck
  | iconCheck
deriving DecidableEq, Repr

/-- The canonical stage order of the driver. -/
def allStages : List Stage :=
  [.loading, .formatCheck, .duplicateCheck, .schemaCheck, .iconCheck]

/-- Outcome of one run of `main`: the process exit code and the stages
that executed, in order. -/
structure RunResult where
  exitCode : Nat
  stagesRun : List Stage
deriving DecidableEq, Repr

/-- The driver `main` (Lean reserves the name `main` for executable
entry points, hence `mainRun`), as a function of the three loaded inputs: the
catalog document, the schema document (either load may fail fatally with
`sys.exit(1)`), and the icon-directory listing (`os.listdir`, consulted
only inside `validate_icons`, whose failure is also fatal).  Each stage
that does not pass exits with code 1 at once; `stagesRun` records the
stages entered, in order.  An uncaught `KeyError` from
`validate_schema` also terminates the interpreter with exit code 1. -/
def mainRun (validate : Validator) (configDoc schemaDoc : Except Unit Json)
    (listing : Except Unit (List String)) : RunResult :=
  match configDoc, schemaDoc with
  | .ok config, .ok schema =>
    if validate_json_format config then
      let entries := getEntries config
      if (validate_duplicate_ids entries).isEmpty then
        match validate_schema validate entries schema with
        | .error _ => ⟨1, allStages.take 4⟩
        | .ok schemaErrs =>
          if schemaErrs.isEmpty then
            match listing with
            | .error _ => ⟨1, allStages⟩
            | .ok icon_files =>
              if (validate_icons entries icon_files).isEmpty then ⟨0, allStages⟩
              else ⟨1, allStages⟩
          else ⟨1, allStages.take 4⟩
      else ⟨1, allStages.take 3⟩
    else ⟨1, allStages.take 2⟩
  | _, _ => ⟨1, allStages.take 1⟩

/-!
Order facts about the code-point comparison and the scored-candidate
comparison, and the bridge from cross-multiplied score comparisons to
the rational scores.
-/

theorem charListLt_irrefl (l : List Char) : charListLt l l = false := by
  induction l with
  | nil => rfl
  | cons x xs ih => simp [charListLt, ih]

theorem charListLt_cons_iff {x y : Char} {xs ys : List Char} :
    charListLt (x :: xs) (y :: ys) = true ↔ x < y ∨ (x = y ∧ charListLt xs ys = true) := by
  by_cases h1 : x < y
  · simp [charListLt, h1]
  · by_cases h2 : y < x
    · simp only [charListLt, h1, if_false, h2, if_true]
      constructor
      · intro h
        exact absurd h (by simp)
      · rintro (h | ⟨rfl, h⟩)
        · exact h.elim
        · exact absurd h2 (lt_irrefl x)
    · have hxy : x = y := le_antisymm (not_lt.mp h2) (not_lt.mp h1)
      subst hxy
      simp [charListLt, lt_irrefl]

theorem charListLt_trans {a b c : List Char} (hab : charListLt a b = true)
    (hbc : charListLt b c = true) : charListLt a c = true := by
  induction a generalizing b c with
  | nil =>
    cases b with
    | nil => simp [charListLt] at hab
    | cons y ys =>
      cases c with
      | nil => simp [charListLt] at hbc
      | cons z zs => simp [charListLt]
  | cons x xs ih =>
    cases b with
    | nil => simp [charListLt] at hab
    | cons y ys =>
      cases c with
      | nil => simp [charListLt] at hbc
      | cons z zs =>
        rw [charListLt_cons_iff] at hab hbc ⊢
        rcases hab with h1 | ⟨rfl, h1⟩
        · rcases hbc with h2 | ⟨rfl, h2⟩
          · exact Or.inl (lt_trans h1 h2)
          · exact Or.inl h1
        · rcases hbc with h2 | ⟨rfl, h2⟩
          · exact Or.inl h2
          · exact Or.inr ⟨rfl, ih h1 h2⟩

theorem charListLt_total {a b : List Char} (hab : charListLt a b = false)
    (hba : charListLt b a = false) : a = b := by
  induction a generalizing b with
  | nil =>
    cases b with
    | nil => rfl
    | cons y ys => simp [charListLt] at hab
  | cons x xs ih =>
    cases b with
    | nil => simp [charListLt] at hba
    | cons y ys =>
      have hab2 : ¬ (x < y ∨ (x = y ∧ charListLt xs ys = true)) := by
        rw [← charListLt_cons_iff]
        simp [hab]
      have hba2 : ¬ (y < x ∨ (y = x ∧ charListLt ys xs = true)) := by
        rw [← charListLt_cons_iff]
        simp [hba]
      push_neg at hab2 hba2
      have hxy : x = y := le_antisymm hba2.1 hab2.1
      subst hxy
      have t1 : charListLt xs ys = false := by
        have := hab2.2 rfl
        simp only [Bool.not_eq_true] at this
        exact this
      have t2 : charListLt ys xs = false := by
        have := hba2.2 rfl
        simp only [Bool.not_eq_true] at this
        exact this
      rw [ih t1 t2]

theorem pyStrLt_trans {a b c : String} (hab : pyStrLt a b = true)
    (hbc : pyStrLt b c = true) : pyStrLt a c = true :=
  charListLt_trans hab hbc

theorem pyStrLt_total {a b : String} (hab : pyStrLt a b = false)
    (hba : pyStrLt b a = false) : a = b := by
  have h := charListLt_total (a := a.toList) (b := b.toList) hab hba
  exact String.ext h

theorem pyStrLt_irrefl (a : String) : pyStrLt a a = false :=
  charListLt_irrefl a.toList

theorem scorePair_snd_pos (c w : String) : 0 < (scorePair c w).2 := by
  unfold scorePair
  dsimp only
  split
  · exact Nat.one_pos
  · omega

theorem simScore_lt_iff (c d w : String) :
    simScore c w < simScore d w ↔
      (scorePair c w).1 * (scorePair d w).2 < (scorePair d w).1 * (scorePair c w).2 := by
  have hc := scorePair_snd_pos c w
  have hd := scorePair_snd_pos d w
  unfold simScore
  rw [div_lt_div_iff₀ (by exact_mod_cast hc) (by exact_mod_cast hd)]
  exact_mod_cast Iff.rfl

theorem simScore_eq_iff (c d w : String) :
    simScore c w = simScore d w ↔
      (scorePair c w).1 * (scorePair d w).2 = (scorePair d w).1 * (scorePair c w).2 := by
  have hc := scorePair_snd_pos c w
  have hd := scorePair_snd_pos d w
  unfold simScore
  rw [div_eq_div_iff (by positivity) (by positivity)]
  exact_mod_cast Iff.rfl

theorem cutoff_le_simScore_iff (c w : String) :
    (3 : Rat) / 5 ≤ simScore c w ↔ passesCutoff c w = true := by
  have hc := scorePair_snd_pos c w
  unfold simScore passesCutoff
  rw [div_le_div_iff₀ (by norm_num) (by exact_mod_cast hc)]
  rw [decide_eq_true_iff]
  constructor
  · intro h
    have : (3 * (scorePair c w).2 : Rat) ≤ (scorePair c w).1 * 5 := by exact_mod_cast h
    have := this.trans_eq (mul_comm _ _)
    exact_mod_cast this
  · intro h
    have : ((3 : Rat) * (scorePair c w).2) ≤ 5 * (scorePair c w).1 := by exact_mod_cast h
    calc (3 : Rat) * (scorePair c w).2 ≤ 5 * (scorePair c w).1 := this
    _ = (scorePair c w).1 * 5 := mul_comm _ _

/-- The selection order of the fuzzy suggestion: `s` is at least as good
a candidate as `c` for `word` when `c` scores strictly lower, or scores
equal and is `s` itself or precedes it in code-point order. -/
def BetterOrEq (word s c : String) : Prop :=
  simScore c word < simScore s word ∨
    (simScore c word = simScore s word ∧ (c = s ∨ pyStrLt c s = true))

theorem BetterOrEq_refl (word s : String) : BetterOrEq word s s :=
  Or.inr ⟨rfl, Or.inl rfl⟩

theorem BetterOrEq_trans {word s b c : String} (h1 : BetterOrEq word s b)
    (h2 : BetterOrEq word b c) : BetterOrEq word s c := by
  rcases h1 with h1 | ⟨h1e, h1s⟩
  · rcases h2 with h2 | ⟨h2e, h2s⟩
    · exact Or.inl (lt_trans h2 h1)
    · exact Or.inl (lt_of_eq_of_lt h2e h1)
  · rcases h2 with h2 | ⟨h2e, h2s⟩
    · exact Or.inl (lt_of_lt_of_eq h2 h1e)
    · refine Or.inr ⟨h2e.trans h1e, ?_⟩
      rcases h1s with rfl | h1s
      · exact h2s
      · rcases h2s with rfl | h2s
        · exact Or.inr h1s
        · exact Or.inr (pyStrLt_trans h2s h1s)

theorem scoredLt_iff (word s t : String) :
    scoredLt (scorePair s word, s) (scorePair t word, t) = true ↔
      (simScore s word < simScore t word ∨
        (simScore s word = simScore t word ∧ pyStrLt s t = true)) := by
  unfold scoredLt
  dsimp only
  rw [Bool.or_eq_true, Bool.and_eq_true, decide_eq_true_iff, beq_iff_eq]
  rw [← simScore_lt_iff, ← simScore_eq_iff]

theorem scoredLt_true_better {word s t : String}
    (h : scoredLt (scorePair s word, s) (scorePair t word, t) = true) :
    BetterOrEq word t s := by
  rcases (scoredLt_iff word s t).mp h with h | ⟨he, hs⟩
  · exact Or.inl h
  · exact Or.inr ⟨he, Or.inr hs⟩

theorem scoredLt_false_better {word s t : String}
    (h : scoredLt (scorePair s word, s) (scorePair t word, t) = false) :
    BetterOrEq word s t := by
  have hne : ¬ (simScore s word < simScore t word ∨
      (simScore s word = simScore t word ∧ pyStrLt s t = true)) := by
    rw [← scoredLt_iff]
    simp [h]
  push_neg at hne
  rcases lt_trichotomy (simScore s word) (simScore t word) with hlt | heq | hgt
  · exact absurd hne.1 (not_le_of_lt hlt)
  · have hstr : pyStrLt s t = false := by
      have := hne.2 heq
      simp only [Bool.not_eq_true] at this
      exact this
    by_cases hts : pyStrLt t s = true
    · exact Or.inr ⟨heq.symm, Or.inr hts⟩
    · have : t = s := pyStrLt_total (by simpa using hts) hstr
      exact Or.inr ⟨heq.symm, Or.inl this⟩
  · exact Or.inl hgt

/-- Canonical form of a scored candidate for `word`. -/
def Canon (word : String) (p : (Nat × Nat) × String) : Prop :=
  p = (scorePair p.2 word, p.2)

theorem pyMax_mem : ∀ (cs : List ((Nat × Nat) × String)) (c : (Nat × Nat) × String),
    pyMax c cs = c ∨ pyMax c cs ∈ cs := by
  intro cs
  induction cs with
  | nil => intro c; exact Or.inl rfl
  | cons x xs ih =>
    intro c
    have hstep : pyMax c (x :: xs) = pyMax (if scoredLt c x then x else c) xs := by
      simp [pyMax, List.foldl_cons]
    rw [hstep]
    rcases ih (if scoredLt c x then x else c) with h | h
    · rw [h]
      by_cases hc : scoredLt c x = true
      · simp [hc]
      · simp [hc]
    · exact Or.inr (List.mem_cons_of_mem x h)

theorem pyMax_best (word : String) :
    ∀ (cs : List ((Nat × Nat) × String)) (c : (Nat × Nat) × String),
      Canon word c → (∀ p ∈ cs, Canon word p) →
      ∀ p, (p = c ∨ p ∈ cs) → BetterOrEq word (pyMax c cs).2 p.2 := by
  intro cs
  induction cs with
  | nil =>
    intro c _ _ p hp
    rcases hp with rfl | hp
    · exact BetterOrEq_refl word p.2
    · exact absurd hp (List.not_mem_nil p)
  | cons x xs ih =>
    intro c hc hall p hp
    have hx : Canon word x := hall x (List.mem_cons_self x xs)
    have hxs : ∀ q ∈ xs, Canon word q := fun q hq => hall q (List.mem_cons_of_mem x hq)
    have hstep : pyMax c (x :: xs) = pyMax (if scoredLt c x then x else c) xs := by
      simp [pyMax, List.foldl_cons]
    rw [hstep]
    set b := if scoredLt c x then x else c with hb
    have hcanb : Canon word b := by
      rw [hb]
      by_cases hlt : scoredLt c x = true
      · simpa [hlt] using hx
      · simpa [hlt] using hc
    have hbc : BetterOrEq word b.2 c.2 := by
      by_cases hlt : scoredLt c x = true
      · have hb2 : b = x := by simp [hb, hlt]
        rw [hb2]
        have := hlt
        rw [hc, hx] at this
        exact scoredLt_true_better this
      · have hb2 : b = c := by simp [hb, hlt]
        rw [hb2]
        exact BetterOrEq_refl word c.2
    have hbx : BetterOrEq word b.2 x.2 := by
      by_cases hlt : scoredLt c x = true
      · have hb2 : b = x := by simp [hb, hlt]
        rw [hb2]
        exact BetterOrEq_refl word x.2
      · have hb2 : b = c := by simp [hb, hlt]
        rw [hb2]
        have hfalse : scoredLt c x = false := by simpa using hlt
        rw [hc, hx] at hfalse
        exact scoredLt_false_better hfalse
    have hub : BetterOrEq word (pyMax b xs).2 b.2 :=
      ih b hcanb hxs b (Or.inl rfl)
    rcases hp with rfl | hp
    · exact BetterOrEq_trans hub hbc
    · rcases List.mem_cons.mp hp with rfl | hp
      · exact BetterOrEq_trans hub hbx
      · exact ih b hcanb hxs p (Or.inr hp)

theorem mem_candidatePairs {word : String} {files : List String}
    {p : (Nat × Nat) × String} :
    p ∈ candidatePairs word files ↔
      p.2 ∈ files ∧ passesCutoff p.2 word = true ∧ p.1 = scorePair p.2 word := by
  unfold candidatePairs
  rw [List.mem_filterMap]
  constructor
  · rintro ⟨x, hx, heq⟩
    by_cases hcut : passesCutoff x word = true
    · rw [if_pos hcut] at heq
      have := Option.some.inj heq
      subst this
      exact ⟨hx, hcut, rfl⟩
    · rw [if_neg hcut] at heq
      exact absurd heq (by simp)
  · rintro ⟨hmem, hcut, hpair⟩
    refine ⟨p.2, hmem, ?_⟩
    rw [if_pos hcut, ← hpair]

/-!
Lemmas about `validate_schema` and `validate_icons`.
-/

theorem foldlM_schemaStep (validate : Validator) (schema items : Json)
    (hi : schema.get "items" = some items) :
    ∀ (l : List (Nat × Json)) (acc : List SchemaError),
      List.foldlM (schemaStep validate schema) acc l =
        Except.ok (acc ++ l.filterMap
          (fun p => (validate p.2 items).map (mkSchemaError p.1 p.2))) := by
  intro l
  induction l with
  | nil =>
    intro acc
    simp [List.foldlM_nil]
    rfl
  | cons a l ih =>
    intro acc
    rw [List.foldlM_cons]
    cases hv : validate a.2 items with
    | none =>
      have hstep : schemaStep validate schema acc a = Except.ok acc := by
        simp only [schemaStep, hi, hv]
      rw [hstep]
      have hskip : (fun p => (validate p.2 items).map (mkSchemaError p.1 p.2)) a = none := by
        simp [hv]
      rw [@List.filterMap_cons_none _ _ (fun p => (validate p.2 items).map (mkSchemaError p.1 p.2)) a l hskip]
      show List.foldlM (schemaStep validate schema) acc l = _
      exact ih acc
    | some err =>
      have hstep : schemaStep validate schema acc a =
          Except.ok (acc ++ [mkSchemaError a.1 a.2 err]) := by
        simp only [schemaStep, hi, hv]
      rw [hstep]
      have hkeep : (fun p => (validate p.2 items).map (mkSchemaError p.1 p.2)) a =
          some (mkSchemaError a.1 a.2 err) := by
        simp [hv]
      rw [@List.filterMap_cons_some _ _ (fun p => (validate p.2 items).map (mkSchemaError p.1 p.2)) a l _ hkeep]
      show List.foldlM (schemaStep validate schema) (acc ++ [mkSchemaError a.1 a.2 err]) l = _
      rw [ih (acc ++ [mkSchemaError a.1 a.2 err])]
      simp

theorem validate_schema_bulk_ok (validate : Validator) (config : List Json) (schema : Json)
    (h : validate (Json.arr config) schema = none) :
    validate_schema validate config schema = Except.ok [] := by
  unfold validate_schema
  rw [h]

theorem validate_schema_bulk_fail (validate : Validator) (config : List Json)
    (schema items : Json) (e0 : VError)
    (hi : schema.get "items" = some items)
    (hb : validate (Json.arr config) schema = some e0) :
    validate_schema validate config schema =
      Except.ok (config.enum.filterMap
        (fun p => (validate p.2 items).map (mkSchemaError p.1 p.2))) := by
  unfold validate_schema
  rw [hb]
  rw [foldlM_schemaStep validate schema items hi]
  simp

theorem validate_schema_keyerror (validate : Validator) (schema : Json) (e0 : VError)
    (entry : Json) (rest : List Json)
    (hi : schema.get "items" = none)
    (hb : validate (Json.arr (entry :: rest)) schema = some e0) :
    validate_schema validate (entry :: rest) schema = Except.error "KeyError: items" := by
  unfold validate_schema
  rw [hb]
  rw [List.enum_cons, List.foldlM_cons]
  unfold schemaStep
  rw [hi]
  rfl

theorem snd_mem_of_mem_enumFrom {α : Type} :
    ∀ (l : List α) (n : Nat) (p : Nat × α), p ∈ List.enumFrom n l → p.2 ∈ l := by
  intro l
  induction l with
  | nil => intro n p hp; simp [List.enumFrom] at hp
  | cons a l ih =>
    intro n p hp
    rw [List.enumFrom_cons, List.mem_cons] at hp
    rcases hp with rfl | hp
    · exact List.mem_cons_self a l
    · exact List.mem_cons_of_mem a (ih (n + 1) p hp)

theorem length_filterMap_enumFrom (validate : Validator) (items : Json) :
    ∀ (l : List Json) (n : Nat),
      ((List.enumFrom n l).filterMap
        (fun p => (validate p.2 items).map (mkSchemaError p.1 p.2))).length =
        l.countP (fun e => (validate e items).isSome) := by
  intro l
  induction l with
  | nil => intro n; simp [List.enumFrom]
  | cons a l ih =>
    intro n
    rw [List.enumFrom_cons, List.filterMap_cons, List.countP_cons]
    cases hv : validate a items with
    | none => simp [hv, ih (n + 1)]
    | some err => simp [hv, ih (n + 1)]

theorem entryIconError_not_listed {icon_files : List String} {e : Json} {r : IconError}
    (h : entryIconError icon_files e = some r) : icon_files.contains r.icon = false := by
  unfold entryIconError at h
  cases hg : e.getTruthy "icon" with
  | none =>
    rw [hg] at h
    exact Option.noConfusion h
  | some v =>
    rw [hg] at h
    cases v with
    | str s =>
      simp only at h
      by_cases hc : icon_files.contains s = true
      · rw [if_pos hc] at h
        exact Option.noConfusion h
      · rw [if_neg hc] at h
        have := Option.some.inj h
        rw [← this]
        simpa using hc
    | null => exact Option.noConfusion h
    | bool b => exact Option.noConfusion h
    | num n => exact Option.noConfusion h
    | arr elems => exact Option.noConfusion h
    | obj fields => exact Option.noConfusion h

theorem count_collectIds (v : Json) :
    ∀ entries : List Json,
      (collectIds entries).count v = entries.countP (fun e => e.getTruthy "id" == some v) := by
  intro entries
  induction entries with
  | nil => rfl
  | cons e es ih =>
    unfold collectIds at ih ⊢
    rw [List.countP_cons]
    cases h : e.getTruthy "id" with
    | none =>
      rw [@List.filterMap_cons_none _ _ (fun e => e.getTruthy "id") e es h, ih]
      simp [h]
    | some u =>
      rw [@List.filterMap_cons_some _ _ (fun e => e.getTruthy "id") e es _ h, List.count_cons, ih]
      by_cases huv : u = v
      · simp [h, huv]
      · simp [h, huv]

/-- Statement-side predicate, following the claim: the entry has a truthy
`icon` value (a string, under the well-typedness hypothesis) that is not
a member of the icon set. -/
def iconUnresolved (files : List String) (e : Json) : Bool :=
  match e.getTruthy "icon" with
  | some (.str s) => !files.contains s
  | _ => false

/-- The entry's requested icon filename (under the well-typedness
hypothesis, its truthy `icon` string). -/
def iconName (e : Json) : String :=
  match e.getTruthy "icon" with
  | some (.str s) => s
  | _ => ""

/-- The catalog data model declares `icon` an optional string: the field
is absent, falsy, or a string. -/
def iconFieldOk (e : Json) : Bool :=
  match e.getTruthy "icon" with
  | some (.str _) => true
  | some _ => false
  | none => true

/-- Statement-side record for an unresolved icon reference, following the
claim: the entry's id (default `"unknown"`), name (default `"unknown"`),
the requested filename, the fixed message, and the fuzzy suggestion. -/
def mkIconErrorSpec (files : List String) (e : Json) : IconError :=
  { id := e.getD "id" (.str "unknown"),
    name := e.getD "name" (.str "unknown"),
    icon := iconName e,
    error := "Icon file not found in icons directory",
    suggestion := find_similar_filename (iconName e) files }

theorem validate_icons_eq_spec :
    ∀ (entries : List Json) (files : List String), entries.all iconFieldOk = true →
      validate_icons entries files = (entries.filter (iconUnresolved files)).map (mkIconErrorSpec files) := by
  intro entries
  induction entries with
  | nil => intro files _; rfl
  | cons e es ih =>
    intro files hall
    rw [List.all_cons, Bool.and_eq_true] at hall
    unfold validate_icons at ih ⊢
    cases hg : e.getTruthy "icon" with
    | none =>
      have h1 : entryIconError files e = none := by simp [entryIconError, hg]
      have h2 : iconUnresolved files e = false := by simp [iconUnresolved, hg]
      rw [List.filterMap_cons_none h1, List.filter_cons_of_neg (by simp [h2])]
      exact ih files hall.2
    | some v =>
      cases v with
      | str s =>
        by_cases hc : files.contains s = true
        · have hmem : s ∈ files := by simpa using hc
          have h1 : entryIconError files e = none := by simp [entryIconError, hg, hmem]
          have h2 : iconUnresolved files e = false := by simp [iconUnresolved, hg, hmem]
          rw [List.filterMap_cons_none h1, List.filter_cons_of_neg (by simp [h2])]
          exact ih files hall.2
        · have hmem : s ∉ files := by simpa using hc
          have h1 : entryIconError files e = some (mkIconErrorSpec files e) := by
            simp [entryIconError, hg, hmem, mkIconErrorSpec, iconName]
          have h2 : iconUnresolved files e = true := by
            simp [iconUnresolved, hg, hmem]
          rw [List.filterMap_cons_some h1, List.filter_cons_of_pos (by simp [h2]), List.map_cons]
          rw [ih files hall.2]
      | null => simp [iconFieldOk, hg] at hall
      | bool b => simp [iconFieldOk, hg] at hall
      | num n => simp [iconFieldOk, hg] at hall
      | arr elems => simp [iconFieldOk, hg] at hall
      | obj fields => simp [iconFieldOk, hg] at hall

/-!
Branch lemmas for the driver: the value of `mainRun` in each of its
outcome configurations.
-/

theorem mainRun_load_error_config (validate : Validator) (u : Unit)
    (schemaDoc : Except Unit Json) (listing : Except Unit (List String)) :
    mainRun validate (Except.error u) schemaDoc listing = ⟨1, allStages.take 1⟩ := by
  cases schemaDoc <;> rfl

theorem mainRun_load_error_schema (validate : Validator) (configDoc : Except Unit Json)
    (u : Unit) (listing : Except Unit (List String)) :
    mainRun validate configDoc (Except.error u) listing = ⟨1, allStages.take 1⟩ := by
  cases configDoc <;> rfl

theorem mainRun_format_fail (validate : Validator) (config schema : Json)
    (listing : Except Unit (List String))
    (hf : validate_json_format config = false) :
    mainRun validate (Except.ok config) (Except.ok schema) listing =
      ⟨1, allStages.take 2⟩ := by
  simp [mainRun, hf]

theorem mainRun_dup_fail (validate : Validator) (config schema : Json)
    (listing : Except Unit (List String))
    (hf : validate_json_format config = true)
    (hd : validate_duplicate_ids (getEntries config) ≠ []) :
    mainRun validate (Except.ok config) (Except.ok schema) listing =
      ⟨1, allStages.take 3⟩ := by
  have hd2 : (validate_duplicate_ids (getEntries config)).isEmpty = false := by
    rcases h : (validate_duplicate_ids (getEntries config)).isEmpty with _ | _
    · rfl
    · exact absurd (List.isEmpty_iff.mp h) hd
  simp [mainRun, hf, hd2]

theorem mainRun_schema_error (validate : Validator) (config schema : Json)
    (listing : Except Unit (List String)) (msg : String)
    (hf : validate_json_format config = true)
    (hd : validate_duplicate_ids (getEntries config) = [])
    (hs : validate_schema validate (getEntries config) schema = Except.error msg) :
    mainRun validate (Except.ok config) (Except.ok schema) listing =
      ⟨1, allStages.take 4⟩ := by
  simp [mainRun, hf, hd, hs]

theorem mainRun_schema_fail (validate : Validator) (config schema : Json)
    (listing : Except Unit (List String)) (errs : List SchemaError)
    (hf : validate_json_format config = true)
    (hd : validate_duplicate_ids (getEntries config) = [])
    (hs : validate_schema validate (getEntries config) schema = Except.ok errs)
    (hne : errs ≠ []) :
    mainRun validate (Except.ok config) (Except.ok schema) listing =
      ⟨1, allStages.take 4⟩ := by
  have hne2 : errs.isEmpty = false := by
    rcases h : errs.isEmpty with _ | _
    · rfl
    · exact absurd (List.isEmpty_iff.mp h) hne
  simp [mainRun, hf, hd, hs, hne2]

theorem mainRun_listing_error (validate : Validator) (config schema : Json) (u : Unit)
    (hf : validate_json_format config = true)
    (hd : validate_duplicate_ids (getEntries config) = [])
    (hs : validate_schema validate (getEntries config) schema = Except.ok []) :
    mainRun validate (Except.ok config) (Except.ok schema) (Except.error u) =
      ⟨1, allStages⟩ := by
  simp [mainRun, hf, hd, hs]

theorem mainRun_icon_fail (validate : Validator) (config schema : Json)
    (icon_files : List String)
    (hf : validate_json_format config = true)
    (hd : validate_duplicate_ids (getEntries config) = [])
    (hs : validate_schema validate (getEntries config) schema = Except.ok [])
    (hi : validate_icons (getEntries config) icon_files ≠ []) :
    mainRun validate (Except.ok config) (Except.ok schema) (Except.ok icon_files) =
      ⟨1, allStages⟩ := by
  have hi2 : (validate_icons (getEntries config) icon_files).isEmpty = false := by
    rcases h : (validate_icons (getEntries config) icon_files).isEmpty with _ | _
    · rfl
    · exact absurd (List.isEmpty_iff.mp h) hi
  simp [mainRun, hf, hd, hs, hi2]

theorem mainRun_success (validate : Validator) (config schema : Json)
    (icon_files : List String)
    (hf : validate_json_format config = true)
    (hd : validate_duplicate_ids (getEntries config) = [])
    (hs : validate_schema validate (getEntries config) schema = Except.ok [])
    (hi : validate_icons (getEntries config) icon_files = []) :
    mainRun validate (Except.ok config) (Except.ok schema) (Except.ok icon_files) =
      ⟨0, allStages⟩ := by
  simp [mainRun, hf, hd, hs, hi]

/-!
Concrete inputs used by the claim instances.
-/

/-- The catalog entry `{"id": "t1", "name": "A", "icon": "a.png"}`. -/
def entryT1A : Json := .obj [("id", .str "t1"), ("name", .str "A"), ("icon", .str "a.png")]

/-- The catalog entry `{"id": "t1", "name": "B"}`. -/
def entryT1B : Json := .obj [("id", .str "t1"), ("name", .str "B")]

/-- A validator that accepts every instance (a schema with no
constraints). -/
def passAll : Validator := fun _ _ => none

/-- A validator that rejects every instance. -/
def failAll : Validator := fun _ _ => some ⟨"validation error", []⟩

/-- A validator that rejects exactly the JSON arrays: bulk validation of
a catalog fails while every (object) entry passes — the shape of a
catalog-level, cross-entry constraint. -/
def bulkOnlyFail : Validator := fun inst _ =>
  match inst with
  | .arr _ => some ⟨"cross-entry violation", []⟩
  | _ => none

/-!
The claims.
-/

/-- C1: `validate_schema` first bulk-validates the whole catalog against
the schema; if bulk validation succeeds it returns the empty list; if
bulk validation reports a violation it validates every entry
individually against `schema["items"]`, emitting exactly one error
record per entry failing the item schema; consequently, when bulk
validation fails while every entry satisfies the item schema (a
catalog-level, cross-entry failure), it returns the empty list. -/
theorem validate_schema_two_pass (validate : Validator) (config : List Json)
    (schema items : Json) (hitems : schema.get "items" = some items) :
    (validate (Json.arr config) schema = none →
      validate_schema validate config schema = Except.ok []) ∧
    (∀ e0, validate (Json.arr config) schema = some e0 →
      validate_schema validate config schema =
        Except.ok (config.enum.filterMap
          (fun p => (validate p.2 items).map (mkSchemaError p.1 p.2))) ∧
      (config.enum.filterMap
          (fun p => (validate p.2 items).map (mkSchemaError p.1 p.2))).length =
        config.countP (fun e => (validate e items).isSome)) ∧
    (∀ e0, validate (Json.arr config) schema = some e0 →
      (∀ e ∈ config, validate e items = none) →
      validate_schema validate config schema = Except.ok []) := by
  refine ⟨?_, ?_, ?_⟩
  · intro h
    exact validate_schema_bulk_ok validate config schema h
  · intro e0 hb
    refine ⟨validate_schema_bulk_fail validate config schema items e0 hitems hb, ?_⟩
    exact length_filterMap_enumFrom validate items config 0
  · intro e0 hb hall
    rw [validate_schema_bulk_fail validate config schema items e0 hitems hb]
    congr 1
    rw [List.filterMap_eq_nil_iff]
    intro p hp
    have hmem : p.2 ∈ config := snd_mem_of_mem_enumFrom config 0 p hp
    rw [hall p.2 hmem]
    rfl

/-- Witness for C1: a schema with an `"items"` member, a one-entry
catalog and a validator rejecting exactly the bulk array: the per-entry
fallback emits no record. -/
theorem validate_schema_two_pass_witness :
    (Json.obj [("items", Json.str "S")]).get "items" = some (Json.str "S") ∧
    validate_schema bulkOnlyFail [Json.obj [("id", Json.str "x")]]
      (Json.obj [("items", Json.str "S")]) = Except.ok [] :=
  ⟨by decide,
   (validate_schema_two_pass bulkOnlyFail [Json.obj [("id", Json.str "x")]]
      (Json.obj [("items", Json.str "S")]) (Json.str "S") (by decide)).2.2
      ⟨"cross-entry violation", []⟩ (by decide) (by decide)⟩

set_option maxRecDepth 40000

/-- C2 (amended): for every requested filename and icon set, a fuzzy
suggestion, when produced, is a member of the icon set scoring at least
3/5, and every other member scoring at least 3/5 either scores strictly
lower or scores equal and is the suggestion itself or precedes it in
code-point order — i.e. equal scores are broken towards the
lexicographically largest candidate, not the first one encountered;
when no suggestion is produced, every member scores below 3/5.  The two
concrete behaviours of the claim hold: `"logoo.png"` against
`{"logo.png", "banner.png"}` suggests `"logo.png"`, and `"xyz123.png"`
against the same set produces no suggestion. -/
theorem find_similar_best_match (filename : String) (files : List String) :
    ((∀ s, find_similar_filename filename files = some s →
      s ∈ files ∧ (3 : Rat) / 5 ≤ simScore s filename ∧
      ∀ c ∈ files, (3 : Rat) / 5 ≤ simScore c filename → BetterOrEq filename s c) ∧
    (find_similar_filename filename files = none →
      ∀ c ∈ files, simScore c filename < (3 : Rat) / 5)) ∧
    (find_similar_filename "logoo.png" ["logo.png", "banner.png"] = some "logo.png" ∧
     find_similar_filename "xyz123.png" ["logo.png", "banner.png"] = none) := by
  refine ⟨⟨?_, ?_⟩, by decide, by decide⟩
  · intro s hs
    unfold find_similar_filename at hs
    cases hcp : candidatePairs filename files with
    | nil =>
      rw [hcp] at hs
      exact Option.noConfusion hs
    | cons c cs =>
      rw [hcp] at hs
      have hs2 : (pyMax c cs).2 = s := Option.some.inj hs
      have hmem : pyMax c cs ∈ c :: cs := by
        rcases pyMax_mem cs c with h | h
        · rw [h]; exact List.mem_cons_self c cs
        · exact List.mem_cons_of_mem c h
      have hmemcp : pyMax c cs ∈ candidatePairs filename files := by
        rw [hcp]; exact hmem
      obtain ⟨hsf, hcut, hpair⟩ := mem_candidatePairs.mp hmemcp
      have hcanon : ∀ p ∈ c :: cs, Canon filename p := by
        intro p hp
        have hpcp : p ∈ candidatePairs filename files := by rw [hcp]; exact hp
        obtain ⟨_, _, hp3⟩ := mem_candidatePairs.mp hpcp
        exact Prod.ext hp3 rfl
      rw [← hs2]
      refine ⟨hsf, (cutoff_le_simScore_iff _ _).mpr hcut, ?_⟩
      intro cand hcand hcandcut
      have hpass : passesCutoff cand filename = true :=
        (cutoff_le_simScore_iff cand filename).mp hcandcut
      have hcmem : (scorePair cand filename, cand) ∈ candidatePairs filename files :=
        mem_candidatePairs.mpr ⟨hcand, hpass, rfl⟩
      rw [hcp] at hcmem
      exact pyMax_best filename cs c (hcanon c (List.mem_cons_self c cs))
        (fun p hp => hcanon p (List.mem_cons_of_mem c hp))
        (scorePair cand filename, cand) (List.mem_cons.mp hcmem)
  · intro hnone c hc
    by_contra hge
    have hcut : (3 : Rat) / 5 ≤ simScore c filename := not_lt.mp hge
    have hpass : passesCutoff c filename = true :=
      (cutoff_le_simScore_iff c filename).mp hcut
    have hcmem : (scorePair c filename, c) ∈ candidatePairs filename files :=
      mem_candidatePairs.mpr ⟨hc, hpass, rfl⟩
    unfold find_similar_filename at hnone
    cases hcp : candidatePairs filename files with
    | nil =>
      rw [hcp] at hcmem
      exact absurd hcmem (List.not_mem_nil _)
    | cons a as =>
      rw [hcp] at hnone
      exact Option.noConfusion hnone

/-- Witness for C2: the suggestion for `"logoo.png"` among
`{"logo.png", "banner.png"}` is a member of the set and scores at least
3/5. -/
theorem find_similar_best_match_witness :
    "logo.png" ∈ ["logo.png", "banner.png"] ∧
    (3 : Rat) / 5 ≤ simScore "logo.png" "logoo.png" :=
  ⟨(((find_similar_best_match "logoo.png" ["logo.png", "banner.png"]).1.1 "logo.png"
      (by decide))).1,
   (((find_similar_best_match "logoo.png" ["logo.png", "banner.png"]).1.1 "logo.png"
      (by decide))).2.1⟩

/-- C2 counterexample: `"abce"` and `"abcf"` score identically (3/4)
against `"abcd"` and both clear the 3/5 cutoff, `"abce"` is listed
first, yet the suggestion is `"abcf"` — the tie is broken towards the
lexicographically larger candidate, not the first one encountered. -/
theorem find_similar_tie_counterexample :
    simScore "abce" "abcd" = simScore "abcf" "abcd" ∧
    (3 : Rat) / 5 ≤ simScore "abce" "abcd" ∧
    pyStrLt "abce" "abcf" = true ∧
    find_similar_filename "abcd" ["abce", "abcf"] = some "abcf" ∧
    "abcf" ≠ "abce" := by
  refine ⟨?_, ?_, by decide, by decide, by decide⟩
  · have h1 : scorePair "abce" "abcd" = (6, 8) := by decide
    have h2 : scorePair "abcf" "abcd" = (6, 8) := by decide
    unfold simScore
    rw [h1, h2]
  · have h1 : scorePair "abce" "abcd" = (6, 8) := by decide
    unfold simScore
    rw [h1]
    norm_num

/-- C3: the driver runs the stages in the fixed order Loading,
FormatCheck, DuplicateCheck, SchemaCheck, IconCheck (every run executes
a prefix of that order, and a run that exits 0 executes all of it); it
exits 0 exactly when loading succeeded and all four checks pass, and 1
otherwise; and on the concrete duplicate-id catalog
`[{"id":"t1","name":"A","icon":"a.png"}, {"id":"t1","name":"B"}]` the
duplicate stage fails with duplicate set `{"t1"}`, the exit code is 1,
and neither the schema stage nor the icon stage runs — for every
validator, schema document and listing. -/
theorem mainRun_fail_fast :
    (∀ (validate : Validator) (configDoc schemaDoc : Except Unit Json)
        (listing : Except Unit (List String)),
      (∃ k, (mainRun validate configDoc schemaDoc listing).stagesRun = allStages.take k) ∧
      ((mainRun validate configDoc schemaDoc listing).exitCode = 0 ∨
        (mainRun validate configDoc schemaDoc listing).exitCode = 1) ∧
      ((mainRun validate configDoc schemaDoc listing).exitCode = 0 ↔
        (∃ config schema icon_files,
          configDoc = Except.ok config ∧ schemaDoc = Except.ok schema ∧
          listing = Except.ok icon_files ∧
          validate_json_format config = true ∧
          validate_duplicate_ids (getEntries config) = [] ∧
          validate_schema validate (getEntries config) schema = Except.ok [] ∧
          validate_icons (getEntries config) icon_files = [])) ∧
      ((mainRun validate configDoc schemaDoc listing).stagesRun = allStages ∨
        (mainRun validate configDoc schemaDoc listing).exitCode = 1)) ∧
    (∀ (validate : Validator) (schema : Json) (listing : Except Unit (List String)),
      mainRun validate (Except.ok (Json.arr [entryT1A, entryT1B])) (Except.ok schema) listing =
        ⟨1, [Stage.loading, Stage.formatCheck, Stage.duplicateCheck]⟩) ∧
    validate_duplicate_ids [entryT1A, entryT1B] = [Json.str "t1"] := by
  refine ⟨?_, ?_, by decide⟩
  · intro validate configDoc schemaDoc listing
    rcases configDoc with u | config
    · rw [mainRun_load_error_config validate u schemaDoc listing]
      refine ⟨⟨1, rfl⟩, Or.inr rfl, ?_, Or.inr rfl⟩
      constructor
      · intro h; exact absurd h (by decide)
      · rintro ⟨c2, s2, fl2, hc2, _⟩
        exact Except.noConfusion hc2
    · rcases schemaDoc with u | schema
      · rw [mainRun_load_error_schema validate (Except.ok config) u listing]
        refine ⟨⟨1, rfl⟩, Or.inr rfl, ?_, Or.inr rfl⟩
        constructor
        · intro h; exact absurd h (by decide)
        · rintro ⟨c2, s2, fl2, hc2, hs2, _⟩
          exact Except.noConfusion hs2
      · cases hf : validate_json_format config with
        | false =>
          rw [mainRun_format_fail validate config schema listing hf]
          refine ⟨⟨2, rfl⟩, Or.inr rfl, ?_, Or.inr rfl⟩
          constructor
          · intro h; exact absurd h (by decide)
          · rintro ⟨c2, s2, fl2, hc2, hs2, hl2, hfmt, _⟩
            obtain rfl : config = c2 := Except.ok.inj hc2
            rw [hf] at hfmt
            exact Bool.noConfusion hfmt
        | true =>
          by_cases hd : validate_duplicate_ids (getEntries config) = []
          · rcases hs : validate_schema validate (getEntries config) schema with msg | errs
            · rw [mainRun_schema_error validate config schema listing msg hf hd hs]
              refine ⟨⟨4, rfl⟩, Or.inr rfl, ?_, Or.inr rfl⟩
              constructor
              · intro h; exact absurd h (by decide)
              · rintro ⟨c2, s2, fl2, hc2, hs2, hl2, hfmt, hdup, hsch, _⟩
                obtain rfl : config = c2 := Except.ok.inj hc2
                obtain rfl : schema = s2 := Except.ok.inj hs2
                rw [hs] at hsch
                exact Except.noConfusion hsch
            · by_cases he : errs = []
              · subst he
                rcases listing with u | icon_files
                · rw [mainRun_listing_error validate config schema u hf hd hs]
                  refine ⟨⟨5, rfl⟩, Or.inr rfl, ?_, Or.inr rfl⟩
                  constructor
                  · intro h; exact absurd h (by decide)
                  · rintro ⟨c2, s2, fl2, hc2, hs2, hl2, _⟩
                    exact Except.noConfusion hl2
                · by_cases hi : validate_icons (getEntries config) icon_files = []
                  · rw [mainRun_success validate config schema icon_files hf hd hs hi]
                    refine ⟨⟨5, rfl⟩, Or.inl rfl, ?_, Or.inl rfl⟩
                    constructor
                    · intro _
                      exact ⟨config, schema, icon_files, rfl, rfl, rfl, hf, hd, hs, hi⟩
                    · intro _; rfl
                  · rw [mainRun_icon_fail validate config schema icon_files hf hd hs hi]
                    refine ⟨⟨5, rfl⟩, Or.inr rfl, ?_, Or.inr rfl⟩
                    constructor
                    · intro h; exact absurd h (by decide)
                    · rintro ⟨c2, s2, fl2, hc2, hs2, hl2, hfmt, hdup, hsch, hicons⟩
                      obtain rfl : config = c2 := Except.ok.inj hc2
                      obtain rfl : schema = s2 := Except.ok.inj hs2
                      obtain rfl : icon_files = fl2 := Except.ok.inj hl2
                      exact absurd hicons hi
              · rw [mainRun_schema_fail validate config schema listing errs hf hd hs he]
                refine ⟨⟨4, rfl⟩, Or.inr rfl, ?_, Or.inr rfl⟩
                constructor
                · intro h; exact absurd h (by decide)
                · rintro ⟨c2, s2, fl2, hc2, hs2, hl2, hfmt, hdup, hsch, _⟩
                  obtain rfl : config = c2 := Except.ok.inj hc2
                  obtain rfl : schema = s2 := Except.ok.inj hs2
                  rw [hs] at hsch
                  exact absurd (Except.ok.inj hsch) he
          · rw [mainRun_dup_fail validate config schema listing hf hd]
            refine ⟨⟨3, rfl⟩, Or.inr rfl, ?_, Or.inr rfl⟩
            constructor
            · intro h; exact absurd h (by decide)
            · rintro ⟨c2, s2, fl2, hc2, hs2, hl2, hfmt, hdup, _⟩
              obtain rfl : config = c2 := Except.ok.inj hc2
              exact absurd hdup hd
  · intro validate schema listing
    have hf : validate_json_format (Json.arr [entryT1A, entryT1B]) = true := by decide
    have hd : validate_duplicate_ids (getEntries (Json.arr [entryT1A, entryT1B])) ≠ [] := by decide
    rw [mainRun_dup_fail validate (Json.arr [entryT1A, entryT1B]) schema listing hf hd]
    rfl

/-- Witness for C3: on the duplicate-id catalog the run exits 1 after
exactly the loading, format and duplicate stages. -/
theorem mainRun_fail_fast_witness :
    mainRun passAll (Except.ok (Json.arr [entryT1A, entryT1B])) (Except.ok (Json.obj []))
      (Except.ok []) = ⟨1, [Stage.loading, Stage.formatCheck, Stage.duplicateCheck]⟩ :=
  mainRun_fail_fast.2.1 passAll (Json.obj []) (Except.ok [])

/-- Hashability of a Python value of the modelled JSON kinds: lists and
dicts are unhashable, so an entry whose truthy `id` is an array or an
object would make `set(ids)` raise; such ids are outside the catalog
data model (`id` is a string). -/
def hashableJson : Json → Bool
  | .arr _ => false
  | .obj _ => false
  | _ => true

/-- C4: `validate_duplicate_ids` returns exactly the id values occurring
more than once among the entries whose `id` field is present and truthy
(an id value is in the result iff more than one entry carries it), each
value at most once; entries with a missing or falsy `id` never
contribute.  The hypothesis restricts to hashable id values, on which
the Python `set(ids)` is defined. -/
theorem validate_duplicate_ids_spec (entries : List Json)
    (_hh : (collectIds entries).all hashableJson = true) :
    (∀ v, v ∈ validate_duplicate_ids entries ↔
      1 < entries.countP (fun e => e.getTruthy "id" == some v)) ∧
    (validate_duplicate_ids entries).Nodup := by
  constructor
  · intro v
    simp only [validate_duplicate_ids]
    rw [List.mem_filter, List.mem_dedup, decide_eq_true_iff, ← count_collectIds v entries]
    constructor
    · rintro ⟨_, h2⟩
      exact h2
    · intro h
      refine ⟨?_, h⟩
      have hpos : 0 < (collectIds entries).count v := lt_trans Nat.zero_lt_one h
      exact List.count_pos_iff.mp hpos
  · exact List.Nodup.filter _ (List.nodup_dedup _)

/-- Witness for C4: in the duplicate-id catalog, `"t1"` is a duplicate
and the result has no repeats. -/
theorem validate_duplicate_ids_spec_witness :
    (Json.str "t1" ∈ validate_duplicate_ids [entryT1A, entryT1B] ↔
      1 < [entryT1A, entryT1B].countP (fun e => e.getTruthy "id" == some (Json.str "t1"))) ∧
    (validate_duplicate_ids [entryT1A, entryT1B]).Nodup :=
  ⟨(validate_duplicate_ids_spec [entryT1A, entryT1B] (by decide)).1 (Json.str "t1"),
   (validate_duplicate_ids_spec [entryT1A, entryT1B] (by decide)).2⟩

/-- C5: `validate_icons` returns exactly one record per entry whose
truthy `icon` value is not in the icon set — in catalog order, each
record carrying the entry's id (default `"unknown"`), name (default
`"unknown"`), the requested filename and the fixed not-found message —
and returns no record for entries with a missing or falsy `icon`; the
result is empty exactly when every truthy icon reference resolves.  The
hypothesis is the data model's typing of `icon` as an optional string. -/
theorem validate_icons_records (entries : List Json) (files : List String)
    (hwt : entries.all iconFieldOk = true) :
    validate_icons entries files =
      (entries.filter (iconUnresolved files)).map (mkIconErrorSpec files) ∧
    (validate_icons entries files = [] ↔ ∀ e ∈ entries, iconUnresolved files e = false) := by
  have heq := validate_icons_eq_spec entries files hwt
  refine ⟨heq, ?_⟩
  rw [heq]
  simp only [List.map_eq_nil_iff, List.filter_eq_nil_iff, Bool.not_eq_true]

/-- Witness for C5: one entry with an unresolved icon reference yields
exactly the one spec record. -/
theorem validate_icons_records_witness :
    validate_icons [Json.obj [("id", Json.str "t"), ("icon", Json.str "zzz.png")]]
        ["logo.png"] =
      ([Json.obj [("id", Json.str "t"), ("icon", Json.str "zzz.png")]].filter
        (iconUnresolved ["logo.png"])).map (mkIconErrorSpec ["logo.png"]) :=
  (validate_icons_records [Json.obj [("id", Json.str "t"), ("icon", Json.str "zzz.png")]]
    ["logo.png"] (by decide)).1

/-- C6: unreferenced icon files never appear in the icon-error list
(every error record's filename is absent from the icon set), and in the
concrete scenario — one entry referencing `"a.png"`, directory
`{"a.png", "b.png"}` — the run exits 0 while `"b.png"` is reported
unused, purely informationally. -/
theorem unused_icons_informational :
    (∀ (entries : List Json) (files : List String),
      (validate_icons entries files).all (fun r => !files.contains r.icon) = true) ∧
    mainRun passAll (Except.ok (Json.arr [entryT1A])) (Except.ok (Json.obj []))
      (Except.ok ["a.png", "b.png"]) = ⟨0, allStages⟩ ∧
    unused_icons [entryT1A] ["a.png", "b.png"] = ["b.png"] := by
  refine ⟨?_, by decide, by decide⟩
  intro entries files
  rw [List.all_eq_true]
  intro r hr
  unfold validate_icons at hr
  obtain ⟨e, _, hee⟩ := List.mem_filterMap.mp hr
  have hnl := entryIconError_not_listed hee
  rw [hnl]
  rfl

/-- C7 counterexample: a run whose icon-directory listing fails but
whose catalog passes the earlier checks still executes the format,
duplicate and schema stages before aborting — the listing is not read
during loading and its failure does not abort before the checks. -/
theorem icons_listing_counterexample :
    mainRun passAll (Except.ok (Json.arr [])) (Except.ok (Json.obj [])) (Except.error ()) =
      ⟨1, allStages⟩ ∧
    Stage.formatCheck ∈ (mainRun passAll (Except.ok (Json.arr [])) (Except.ok (Json.obj []))
      (Except.error ())).stagesRun := by
  exact ⟨by decide, by decide⟩

/-- C7 (amended): the icon-directory listing is consulted only in the
icon stage: whenever a run ends before the icon stage its outcome is
independent of the listing, and when the four earlier stages pass and
the listing fails, the run exits 1 at the icon stage. -/
theorem icons_listing_at_icon_stage :
    (∀ (validate : Validator) (configDoc schemaDoc : Except Unit Json)
        (l1 l2 : Except Unit (List String)),
      Stage.iconCheck ∉ (mainRun validate configDoc schemaDoc l1).stagesRun →
      mainRun validate configDoc schemaDoc l1 = mainRun validate configDoc schemaDoc l2) ∧
    (∀ (validate : Validator) (config schema : Json),
      validate_json_format config = true →
      validate_duplicate_ids (getEntries config) = [] →
      validate_schema validate (getEntries config) schema = Except.ok [] →
      mainRun validate (Except.ok config) (Except.ok schema) (Except.error ()) =
        ⟨1, allStages⟩) := by
  constructor
  · intro validate configDoc schemaDoc l1 l2 hnot
    rcases configDoc with u | config
    · rw [mainRun_load_error_config, mainRun_load_error_config]
    · rcases schemaDoc with u | schema
      · rw [mainRun_load_error_schema, mainRun_load_error_schema]
      · cases hf : validate_json_format config with
        | false => rw [mainRun_format_fail _ _ _ _ hf, mainRun_format_fail _ _ _ _ hf]
        | true =>
          by_cases hd : validate_duplicate_ids (getEntries config) = []
          · rcases hs : validate_schema validate (getEntries config) schema with msg | errs
            · rw [mainRun_schema_error _ _ _ _ _ hf hd hs,
                mainRun_schema_error _ _ _ _ _ hf hd hs]
            · by_cases he : errs = []
              · subst he
                have hall : (mainRun validate (Except.ok config) (Except.ok schema) l1).stagesRun =
                    allStages := by
                  rcases l1 with u | icon_files
                  · rw [mainRun_listing_error _ _ _ _ hf hd hs]
                  · by_cases hi : validate_icons (getEntries config) icon_files = []
                    · rw [mainRun_success _ _ _ _ hf hd hs hi]
                    · rw [mainRun_icon_fail _ _ _ _ hf hd hs hi]
                rw [hall] at hnot
                exact absurd (by decide) hnot
              · rw [mainRun_schema_fail _ _ _ _ _ hf hd hs he,
                  mainRun_schema_fail _ _ _ _ _ hf hd hs he]
          · rw [mainRun_dup_fail _ _ _ _ hf hd, mainRun_dup_fail _ _ _ _ hf hd]
  · intro validate config schema hf hd hs
    exact mainRun_listing_error validate config schema () hf hd hs

/-- Witness for C7: an empty catalog passes the first four stages, and a
failing listing then exits 1 with all five stages entered. -/
theorem icons_listing_at_icon_stage_witness :
    mainRun passAll (Except.ok (Json.arr [])) (Except.ok (Json.obj [])) (Except.error ()) =
      ⟨1, allStages⟩ :=
  icons_listing_at_icon_stage.2 passAll (Json.arr []) (Json.obj []) rfl rfl rfl

/-- C8 counterexample: an entry whose `id` and `name` are present but
falsy (empty strings) keeps those empty strings in its schema-error
record — the `"entry-<i>"` and `"unknown"` fallbacks are not applied to
present-but-falsy values. -/
theorem schema_error_fallback_counterexample :
    validate_schema failAll [Json.obj [("id", Json.str ""), ("name", Json.str "")]]
      (Json.obj [("items", Json.obj [])]) =
      Except.ok [{ id := Json.str "", name := Json.str "",
                   error := "validation error", path := "" }] ∧
    (Json.str "").truthy = false ∧
    Json.str "" ≠ Json.str "entry-0" ∧
    Json.str "" ≠ Json.str "unknown" := by
  exact ⟨rfl, by decide, by decide, by decide⟩

/-- C8 (amended): in per-entry mode every record for a failing entry at
index `i` carries the entry's `id` value when the field is present
(even falsy) and `"entry-<i>"` only when it is absent, the entry's
`name` value when present and `"unknown"` only when absent, the
validator's error description, and the dotted path of the offending
field (empty for a root-level violation). -/
theorem schema_error_record_fields :
    ∀ (validate : Validator) (config : List Json) (schema items : Json),
      schema.get "items" = some items →
      ∀ e0, validate (Json.arr config) schema = some e0 →
      (validate_schema validate config schema =
        Except.ok (config.enum.filterMap
          (fun p => (validate p.2 items).map (mkSchemaError p.1 p.2)))) ∧
      (∀ (i : Nat) (entry : Json) (err : VError),
        (entry.get "id" = none →
          (mkSchemaError i entry err).id = Json.str ("entry-" ++ toString i)) ∧
        (∀ x, entry.get "id" = some x → (mkSchemaError i entry err).id = x) ∧
        (entry.get "name" = none → (mkSchemaError i entry err).name = Json.str "unknown") ∧
        (∀ x, entry.get "name" = some x → (mkSchemaError i entry err).name = x) ∧
        (mkSchemaError i entry err).error = err.message ∧
        (mkSchemaError i entry err).path = String.intercalate "." err.path ∧
        (err.path = [] → (mkSchemaError i entry err).path = "")) := by
  intro validate config schema items hi e0 hb
  refine ⟨validate_schema_bulk_fail validate config schema items e0 hi hb, ?_⟩
  intro i entry err
  refine ⟨?_, ?_, ?_, ?_, rfl, rfl, ?_⟩
  · intro h
    simp [mkSchemaError, Json.getD, h]
  · intro x h
    simp [mkSchemaError, Json.getD, h]
  · intro h
    simp [mkSchemaError, Json.getD, h]
  · intro x h
    simp [mkSchemaError, Json.getD, h]
  · intro h
    simp [mkSchemaError, h]
    rfl

/-- Witness for C8: an entry with no `id` field gets the `"entry-0"`
fallback in its record. -/
theorem schema_error_record_fields_witness :
    (mkSchemaError 0 (Json.obj []) ⟨"m", []⟩).id = Json.str "entry-0" :=
  ((schema_error_record_fields failAll [Json.obj []] (Json.obj [("items", Json.obj [])])
    (Json.obj []) (by decide) ⟨"validation error", []⟩ (by decide)).2
    0 (Json.obj []) ⟨"m", []⟩).1 (by decide)

/-- C9 counterexample: with the empty catalog, a failing bulk validation
and a schema with no `"items"` member, `validate_schema` returns the
empty list instead of failing — the per-entry loop, and with it the
`schema["items"]` subscript, is never executed. -/
theorem items_lookup_empty_catalog_counterexample :
    (Json.obj []).get "items" = none ∧
    failAll (Json.arr []) (Json.obj []) = some ⟨"validation error", []⟩ ∧
    validate_schema failAll [] (Json.obj []) = Except.ok [] := by
  exact ⟨by decide, rfl, rfl⟩

/-- C9 (amended): when the schema document has an `"items"` member the
failure branch of the `schema["items"]` lookup is unreachable
(`validate_schema` always returns a list); without it, a bulk-validation
failure on a nonempty catalog makes `validate_schema` itself fail with
the missing-key error. -/
theorem items_lookup_guard :
    (∀ (validate : Validator) (config : List Json) (schema items : Json),
      schema.get "items" = some items →
      ∃ errs, validate_schema validate config schema = Except.ok errs) ∧
    (∀ (validate : Validator) (schema : Json) (e0 : VError) (entry : Json) (rest : List Json),
      schema.get "items" = none →
      validate (Json.arr (entry :: rest)) schema = some e0 →
      validate_schema validate (entry :: rest) schema = Except.error "KeyError: items") := by
  constructor
  · intro validate config schema items hi
    cases hb : validate (Json.arr config) schema with
    | none => exact ⟨[], validate_schema_bulk_ok validate config schema hb⟩
    | some e0 => exact ⟨_, validate_schema_bulk_fail validate config schema items e0 hi hb⟩
  · intro validate schema e0 entry rest hi hb
    exact validate_schema_keyerror validate schema e0 entry rest hi hb

/-- Witness for C9: a one-entry catalog, a schema with no `"items"` key
and an always-failing validator produce the key error. -/
theorem items_lookup_guard_witness :
    validate_schema failAll [Json.obj []] (Json.obj []) = Except.error "KeyError: items" :=
  items_lookup_guard.2 failAll (Json.obj []) ⟨"validation error", []⟩ (Json.obj []) []
    (by decide) (by decide)

/-- C10: for the empty catalog every check passes and the run exits 0,
for every validator, schema document and icon set: the format check
holds, there are no duplicate ids, `validate_schema` returns the empty
list even when bulk validation of the empty list fails (the fallback
iterates zero entries), `validate_icons` reports no errors, and every
icon file is reported unused. -/
theorem empty_catalog_passes :
    ∀ (validate : Validator) (schema : Json) (icon_files : List String),
      mainRun validate (Except.ok (Json.arr [])) (Except.ok schema) (Except.ok icon_files) =
        ⟨0, allStages⟩ ∧
      validate_json_format (Json.arr []) = true ∧
      validate_duplicate_ids [] = [] ∧
      validate_schema validate [] schema = Except.ok [] ∧
      validate_icons [] icon_files = [] ∧
      unused_icons [] icon_files = icon_files := by
  intro validate schema icon_files
  have hs : validate_schema validate [] schema = Except.ok [] := by
    cases hb : validate (Json.arr []) schema with
    | none => exact validate_schema_bulk_ok validate [] schema hb
    | some e0 =>
      unfold validate_schema
      rw [hb]
      rfl
  refine ⟨?_, rfl, rfl, hs, rfl, ?_⟩
  · exact mainRun_success validate (Json.arr []) schema icon_files rfl rfl hs rfl
  · unfold unused_icons
    simp
